import Mathlib

/-!
Shallow embedding of `clients/pkg/promtail/client/wal.go` (promtail WAL
wrapper): the WAL capability contract with its disabled (`noopWAL`) and
durable (`walWrapper`) variants, segment deletion, and the resetting
object pool.  External collaborators (the tsdb `wlog` engine, the
filesystem, the logger) are modelled as explicit environments and event
traces; repository types that live outside the provided source
(`ingester.WALRecord` and its encoders) are modelled from the spec where
noted.
-/

deriving instance DecidableEq for Except

namespace PromtailWal

/-- A Go slice, abstracted to its visible elements plus the capacity of its
backing array.  `data.length ≤ cap` is maintained by the operations below
but not carried as a proof field. -/
structure GoSlice (α : Type) where
  data : List α
  cap : Nat
  deriving Repr, DecidableEq

/-- Go `s[:0]`: length zero, backing capacity retained. -/
def GoSlice.trunc (s : GoSlice α) : GoSlice α :=
  { data := [], cap := s.cap }

/-- Go `append(s, xs...)`: elements appended; the backing array is kept when
the result still fits, otherwise a larger one is allocated (the exact growth
policy of the runtime is irrelevant to the claims and abstracted as `max`). -/
def GoSlice.push (s : GoSlice α) (xs : List α) : GoSlice α :=
  { data := s.data ++ xs
    cap := if s.data.length + xs.length ≤ s.cap then s.cap
           else max (2 * s.cap) (s.data.length + xs.length) }

/-- Modelled from the spec: an Entry is "an immutable timestamp +
line-content pair" (`logproto.Entry`, not under the provided source). -/
structure Entry where
  ts : Int
  line : String
  deriving Repr, DecidableEq

/-- Modelled from the spec: a series descriptor is "stream identity plus an
integer reference id" (`record.RefSeries`, not under the provided source). -/
structure SeriesDesc where
  ref : Int
  labels : String
  deriving Repr, DecidableEq

/-- Modelled from the spec: a RefEntries group is a "reference id paired
with an ordered list of Entry" (`ingester.RefEntries`, not under the
provided source). -/
structure RefEntriesRec where
  ref : Int
  entries : GoSlice Entry
  deriving Repr, DecidableEq

/-- Modelled from the spec: record-type tags for encoded WAL payloads; the
entries payload is "tagged as current-format entries"
(`ingester.RecordType`, not under the provided source). -/
inductive RecordType
  | walRecordSeries
  | walRecordEntriesV1
  | walRecordEntriesV2
  deriving Repr, DecidableEq

/-- Modelled from the spec: the current-format entries tag
(`ingester.CurrentEntriesRec`, not under the provided source). -/
def currentEntriesRec : RecordType := RecordType.walRecordEntriesV2

/-- Modelled from the spec: `ingester.WALRecord` — "a transient unit of work
containing an ordered list of Series descriptors ... and an ordered list of
RefEntries" plus the user/tenant id it belongs to (not under the provided
source; `wal.go` reads only `Series`, `RefEntries` and calls the encoders). -/
structure WALRecord where
  UserID : String
  Series : GoSlice SeriesDesc
  RefEntries : GoSlice RefEntriesRec
  deriving Repr, DecidableEq

/-- Modelled from the spec: `WALRecord.Reset` — "the returned instance has
had all internal fields reset (cleared series/entries, counters zeroed)
while retaining backing capacity" (not under the provided source). -/
def WALRecord.Reset (r : WALRecord) : WALRecord :=
  { UserID := ""
    Series := r.Series.trunc
    RefEntries := r.RefEntries.trunc }

/-- Abstract alphabet of encoded WAL payload bytes: one token per record
tag, series descriptor or entries group. -/
inductive WalByte
  | recType (t : RecordType)
  | seriesTok (ref : Int) (labels : String)
  | entriesTok (ref : Int) (entries : List Entry)
  deriving Repr, DecidableEq

/-- Modelled from the spec: `WALRecord.EncodeSeries` appends to `buf` the
series payload — "present only if Series is non-empty; contains the ordered
series descriptors for this batch" (not under the provided source). -/
def encodeSeries (r : WALRecord) (buf : GoSlice WalByte) : GoSlice WalByte :=
  (buf.push [WalByte.recType RecordType.walRecordSeries]).push
    (r.Series.data.map fun s => WalByte.seriesTok s.ref s.labels)

/-- Modelled from the spec: `WALRecord.EncodeEntries` appends to `buf` the
entries payload — "contains the ordered (ref, entries) groups, tagged as
current-format entries" (not under the provided source). -/
def encodeEntries (t : RecordType) (r : WALRecord) (buf : GoSlice WalByte) :
    GoSlice WalByte :=
  (buf.push [WalByte.recType t]).push
    (r.RefEntries.data.map fun g => WalByte.entriesTok g.ref g.entries.data)

/-- The series payload of a record: the bytes `EncodeSeries` produces on an
empty buffer. -/
def seriesPayload (r : WALRecord) : List WalByte :=
  (encodeSeries r ⟨[], 0⟩).data

/-- The entries payload of a record: the bytes `EncodeEntries` produces on
an empty buffer with the current-format tag. -/
def entriesPayload (r : WALRecord) : List WalByte :=
  (encodeEntries currentEntriesRec r ⟨[], 0⟩).data

/-- Observable events issued by the wrapper towards the engine, the
filesystem and the logger. -/
inductive Ev
  | append (payload : List WalByte)
  | close
  | sync
  | nextSegment
  | removeAll (dir : String)
  | warn (msg : String)
  deriving Repr, DecidableEq

/-! ## The resetting pool (`resettingPool`, wal.go lines 171–221)

A `sync.Pool` is modelled as the list of instances currently available,
together with the `New` allocation run when the list is empty.  Which freed
instance `Get` receives is unspecified in Go; the model hands back the most
recently stored one. -/

/-- `sync.Pool.Get`: a previously released instance, or a fresh `new` one. -/
def poolGet (new : α) : List α → α × List α
  | [] => (new, [])
  | x :: xs => (x, xs)

/-- `rPool.New` (wal.go line 207): a zero `WALRecord`. -/
def newRecord : WALRecord := { UserID := "", Series := ⟨[], 0⟩, RefEntries := ⟨[], 0⟩ }

/-- `ePool.New` (wal.go line 212): `make([]logproto.Entry, 0, 512)`. -/
def newEntries : GoSlice Entry := ⟨[], 512⟩

/-- `bPool.New` (wal.go line 217): `make([]byte, 0, 1<<10)`. -/
def newBytes : GoSlice WalByte := ⟨[], 1024⟩

/-- `resettingPool.GetRecord` (wal.go lines 177–181): take from the record
pool (or allocate) and `Reset` the instance before returning it. -/
def GetRecord (p : List WALRecord) : WALRecord × List WALRecord :=
  ((poolGet newRecord p).1.Reset, (poolGet newRecord p).2)

/-- `resettingPool.PutRecord` (wal.go lines 183–185): store the record
unchanged. -/
def PutRecord (r : WALRecord) (p : List WALRecord) : List WALRecord :=
  r :: p

/-- `resettingPool.GetEntries` (wal.go lines 187–189): take from the entries
pool (or allocate), returned as stored. -/
def GetEntries (p : List (GoSlice Entry)) : GoSlice Entry × List (GoSlice Entry) :=
  poolGet newEntries p

/-- `resettingPool.PutEntries` (wal.go lines 191–193): store `es[:0]`. -/
def PutEntries (es : GoSlice Entry) (p : List (GoSlice Entry)) : List (GoSlice Entry) :=
  es.trunc :: p

/-- `resettingPool.GetBytes` (wal.go lines 195–197): take from the byte pool
(or allocate), returned as stored. -/
def GetBytes (p : List (GoSlice WalByte)) : GoSlice WalByte × List (GoSlice WalByte) :=
  poolGet newBytes p

/-- `resettingPool.PutBytes` (wal.go lines 199–201): store `b[:0]`. -/
def PutBytes (b : GoSlice WalByte) (p : List (GoSlice WalByte)) : List (GoSlice WalByte) :=
  b.trunc :: p

/-! ## The disabled variant (`noopWAL`, wal.go lines 36–60)

Fallible operations return their Go `error` as `Except String Unit` plus
the list of engine/filesystem/logger events they caused. -/

/-- `noopWAL.Log` (wal.go lines 38–40). -/
def noopWAL.Log (_record : Option WALRecord) : Except String Unit × List Ev :=
  (Except.ok (), [])

/-- `noopWAL.Delete` (wal.go lines 42–44). -/
def noopWAL.Delete : Except String Unit × List Ev :=
  (Except.ok (), [])

/-- `noopWAL.Sync` (wal.go lines 46–48). -/
def noopWAL.Sync : Except String Unit × List Ev :=
  (Except.ok (), [])

/-- `noopWAL.Dir` (wal.go lines 50–52). -/
def noopWAL.Dir : String := ""

/-- `noopWAL.DeleteSegment` (wal.go lines 54–56). -/
def noopWAL.DeleteSegment (_segmentNum : Int) : Except String Unit × List Ev :=
  (Except.ok (), [])

/-- `noopWAL.NextSegment` (wal.go lines 58–60). -/
def noopWAL.NextSegment : Except String Int × List Ev :=
  (Except.ok 0, [])

/-! ## The durable variant (`walWrapper`) -/

/-- Behaviour of the external collaborators during one call on the durable
variant: the tsdb `wlog` engine and the filesystem.  `appendErr n` is the
error (if any) of the n-th `w.wal.Log` append of the call. -/
structure Env where
  appendErr : Nat → Option String
  closeErr : Option String
  removeAllErr : Option String
  deriving Inhabited

/-- Result of `walWrapper.Log`: the returned error, the events issued, and
the byte pool after the deferred `PutBytes`. -/
structure LogResult where
  res : Except String Unit
  evs : List Ev
  pool : List (GoSlice WalByte)
  deriving Repr

/-- `walWrapper.Log` (wal.go lines 100–127).  A nil record pointer is
`none`.  Control flow is unrolled: the guard on line 101 returns before any
pool or engine access; otherwise a byte buffer is borrowed and truncated
(line 106), the series payload is encoded and appended when `Series` is
non-empty (lines 112–118, early return on engine error), the buffer is
re-truncated, the entries payload is encoded and appended when `RefEntries`
is non-empty (lines 119–125, early return on engine error), and on every
return path the deferred `PutBytes` (lines 107–109) stores the final value
of `buf` back into the pool. -/
def walWrapper.Log (env : Env) (pool : List (GoSlice WalByte))
    (record : Option WALRecord) : LogResult :=
  match record with
  | none => { res := Except.ok (), evs := [], pool := pool }
  | some r =>
    if r.Series.data.length = 0 ∧ r.RefEntries.data.length = 0 then
      { res := Except.ok (), evs := [], pool := pool }
    else
      let buf0 := (GetBytes pool).1
      let pool1 := (GetBytes pool).2
      let buf := buf0.trunc
      if r.Series.data.length > 0 then
        let bufS := encodeSeries r buf
        match env.appendErr 0 with
        | some e =>
          { res := Except.error e, evs := [Ev.append bufS.data]
            pool := PutBytes bufS pool1 }
        | none =>
          let buf2 := bufS.trunc
          if r.RefEntries.data.length > 0 then
            let bufE := encodeEntries currentEntriesRec r buf2
            match env.appendErr 1 with
            | some e =>
              { res := Except.error e
                evs := [Ev.append bufS.data, Ev.append bufE.data]
                pool := PutBytes bufE pool1 }
            | none =>
              { res := Except.ok ()
                evs := [Ev.append bufS.data, Ev.append bufE.data]
                pool := PutBytes bufE pool1 }
          else
            { res := Except.ok (), evs := [Ev.append bufS.data]
              pool := PutBytes buf2 pool1 }
      else
        let bufE := encodeEntries currentEntriesRec r buf
        match env.appendErr 0 with
        | some e =>
          { res := Except.error e, evs := [Ev.append bufE.data]
            pool := PutBytes bufE pool1 }
        | none =>
          { res := Except.ok (), evs := [Ev.append bufE.data]
            pool := PutBytes bufE pool1 }

/-- `walWrapper.Delete` (wal.go lines 91–98): close the engine, downgrade a
close failure to a warning log, then remove the WAL directory tree; the
removal outcome is the returned error. -/
def walWrapper.Delete (env : Env) (dir : String) : Except String Unit × List Ev :=
  let warnEvs : List Ev :=
    match env.closeErr with
    | some _ => [Ev.warn ("failed to close WAL")]
    | none => []
  let res : Except String Unit :=
    match env.removeAllErr with
    | none => Except.ok ()
    | some e => Except.error e
  (res, [Ev.close] ++ warnEvs ++ [Ev.removeAll dir])

/-- The outcome of the `os.RemoveAll` attempt alone. -/
def removeAllOutcome (removeAllErr : Option String) : Except String Unit :=
  match removeAllErr with
  | none => Except.ok ()
  | some e => Except.error e

/-! ## Segment deletion (`walWrapper.DeleteSegment`, wal.go lines 138–165) -/

/-- Is `c` a decimal digit? -/
def isDigit (c : Char) : Bool :=
  decide ('0' ≤ c) && decide (c ≤ '9')

/-- Numeric value of a list of decimal digits. -/
def digitsVal (ds : List Char) : Nat :=
  ds.foldl (fun acc c => 10 * acc + (c.toNat - '0'.toNat)) 0

/-- Go `strconv.Atoi` (base 10, 64-bit `int`): an optional leading `+` or
`-`, then at least one decimal digit and nothing else; a value outside the
`int64` range is a range error.  `none` is any non-nil error. -/
def atoi (s : String) : Option Int :=
  let (neg, ds) : Bool × List Char :=
    match s.data with
    | '+' :: rest => (false, rest)
    | '-' :: rest => (true, rest)
    | cs => (false, cs)
  if ds = [] then none
  else if ds.all isDigit then
    let v : Int := if neg then -(digitsVal ds : Int) else (digitsVal ds : Int)
    if -(2 ^ 63) ≤ v ∧ v < 2 ^ 63 then some v else none
  else none

/-- The parse the specification describes for directory entries: "attempt to
parse its name as a base-10 non-negative integer".  Kept separate from
`atoi` so the two can be compared; digits only, no sign. -/
def parseNonNeg (s : String) : Option Int :=
  if s.data ≠ [] ∧ s.data.all isDigit then some (digitsVal s.data : Int) else none

/-- The scan loop of `DeleteSegment` (wal.go lines 145–156): walk the
directory listing in order, skip names `strconv.Atoi` rejects, stop at the
first name whose parsed value equals `segmentNum`. -/
def findSegment (segmentNum : Int) : List String → Option String
  | [] => none
  | f :: fs =>
    match atoi f with
    | some n => if n = segmentNum then some f else findSegment segmentNum fs
    | none => findSegment segmentNum fs

/-- `walWrapper.DeleteSegment` (wal.go lines 138–165) over an explicit
filesystem: `listing` is what `os.ReadDir` yields for the WAL directory
(`none` when the read itself fails), `removeErr name` the error of
`os.Remove` on the matched file.  Returns the Go error and the directory
contents afterwards (`os.Remove` deletes the first — in a real directory
the only — occurrence of the name; a failed remove leaves it in place). -/
def DeleteSegment (removeErr : String → Option String)
    (listing : Option (List String)) (segmentNum : Int) :
    Except String Unit × List String :=
  match listing with
  | none => (Except.error ("error reading wal dir"), [])
  | some files =>
    match findSegment segmentNum files with
    | none => (Except.error ("segment not found"), files)
    | some name =>
      match removeErr name with
      | some cause =>
        (Except.error ("failed deleting segment: " ++ cause), files)
      | none => (Except.ok (), files.erase name)

/-! ## Construction (`newWAL`, wal.go lines 69–85) -/

/-- The `WALConfig` fields `newWAL` reads. -/
structure WALConfig where
  Enabled : Bool
  Dir : String
  deriving Repr, DecidableEq

/-- The two variants a constructed WAL can be: the shared no-op instance, or
a `walWrapper` whose engine was opened on `dir` (the engine hands `dir` back
through `wlog.WL.Dir`, so it is the wrapper's storage directory). -/
inductive WALInstance
  | noop
  | wrapper (dir : String)
  deriving Repr, DecidableEq

/-- Split a character list on `/` (Go `strings.Split(s, "/")`; the empty
input yields one empty component). -/
def splitSlash (cs : List Char) : List (List Char) :=
  cs.foldr
    (fun c acc =>
      if c = '/' then [] :: acc
      else
        match acc with
        | [] => [[c]]
        | g :: gs => (c :: g) :: gs)
    [[]]

/-- The component stack of Go `path.Clean`: `..` pops the previous
component, an unmatched `..` is dropped on a rooted path and kept on a
relative one; empty and `.` components have already been filtered out. -/
def cleanComps (rooted : Bool) (comps : List (List Char)) : List (List Char) :=
  (comps.foldl
      (fun st c =>
        if c = ['.', '.'] then
          match st with
          | [] => if rooted then [] else [['.', '.']]
          | top :: rest => if top = ['.', '.'] then c :: st else rest
        else c :: st)
      []).reverse

/-- Go `path.Clean`, functionally: split on `/`, drop empty and `.`
components, resolve `..` against a stack, re-join, with `.` for an empty
relative result and `/` for an empty rooted one. -/
def pathClean (p : String) : String :=
  match p.data with
  | [] => "."
  | c :: cs =>
    let rooted := c = '/'
    let comps := (splitSlash (c :: cs)).filter fun g => !(g == []) && !(g == ['.'])
    let stack := cleanComps rooted comps
    let body := List.intercalate ['/'] stack
    if rooted then (if stack = [] then "/" else ⟨'/' :: body⟩)
    else (if stack = [] then "." else ⟨body⟩)

/-- Go `path.Join` on three elements (wal.go line 74 joins `cfg.Dir`,
`clientName`, `tenantID`): skip leading empty elements, join the rest with
`/`, `Clean` the result; all empty gives `""`. -/
def pathJoin (a b c : String) : String :=
  match List.dropWhile (fun e : String => e.data == []) [a, b, c] with
  | [] => ""
  | es => pathClean ⟨List.intercalate ['/'] (es.map String.data)⟩

/-- `newWAL` (wal.go lines 69–85): the disabled configuration yields the
shared no-op WAL; otherwise the engine is opened on
`path.Join(cfg.Dir, clientName, tenantID)` — an engine construction error
(`engineNewErr dir`) is returned unchanged, else the wrapper holds that
directory. -/
def newWAL (engineNewErr : String → Option String) (cfg : WALConfig)
    (clientName tenantID : String) : Except String WALInstance :=
  if !cfg.Enabled then Except.ok WALInstance.noop
  else
    let dir := pathJoin cfg.Dir clientName tenantID
    match engineNewErr dir with
    | some e => Except.error e
    | none => Except.ok (WALInstance.wrapper dir)

/-! ## Concrete instances used below -/

/-- An environment on which every collaborator call succeeds. -/
def envOK : Env := ⟨fun _ => none, none, none⟩

/-- An environment on which the first engine append of a call fails. -/
def envFailFirst : Env :=
  ⟨fun n => if n = 0 then some ("append failed") else none, none, none⟩

/-- A record with one series descriptor and one entries group. -/
def bothRecord : WALRecord :=
  { UserID := "t1"
    Series := ⟨[⟨1, "job=promtail"⟩], 1⟩
    RefEntries := ⟨[⟨1, ⟨[⟨0, "hello"⟩], 1⟩⟩], 1⟩ }

/-- A record with empty series and entries lists but nonzero capacities. -/
def emptyRecord : WALRecord := { UserID := "t1", Series := ⟨[], 8⟩, RefEntries := ⟨[], 4⟩ }

/-- A consumed record that still holds content when handed back to the pool. -/
def dirtyRecord : WALRecord :=
  { UserID := "tenant1", Series := ⟨[⟨7, "job=promtail"⟩], 4⟩, RefEntries := ⟨[], 2⟩ }

/-! ## Helper lemmas -/

/-- Truncation empties the visible elements. -/
theorem trunc_data (s : GoSlice α) : s.trunc.data = [] := rfl

/-- Encoding series into an empty buffer yields exactly the series payload. -/
theorem encodeSeries_data_empty (r : WALRecord) (b : GoSlice WalByte) (hb : b.data = []) :
    (encodeSeries r b).data = seriesPayload r := by
  simp [encodeSeries, seriesPayload, GoSlice.push, hb]

/-- Encoding entries into an empty buffer yields exactly the entries payload. -/
theorem encodeEntries_data_empty (r : WALRecord) (b : GoSlice WalByte) (hb : b.data = []) :
    (encodeEntries currentEntriesRec r b).data = entriesPayload r := by
  simp [encodeEntries, entriesPayload, GoSlice.push, hb]

/-- The scan finds nothing when no name Atoi-parses to the requested id. -/
theorem findSegment_eq_none (id : Int) (files : List String)
    (h : ∀ f ∈ files, atoi f ≠ some id) : findSegment id files = none := by
  induction files with
  | nil => rfl
  | cons f fs ih =>
    have hf : atoi f ≠ some id := h f (by simp)
    have hrest : findSegment id fs = none := ih fun g hg => h g (by simp [hg])
    cases haf : atoi f with
    | none => simpa [findSegment, haf] using hrest
    | some n =>
      have hn : ¬(n = id) := fun he => hf (by rw [haf, he])
      simpa [findSegment, haf, hn] using hrest

/-- The scan stops at the first name that Atoi-parses to the requested id. -/
theorem findSegment_first_match (id : Int) (pre post : List String) (m : String)
    (hm : atoi m = some id) (hpre : ∀ f ∈ pre, atoi f ≠ some id) :
    findSegment id (pre ++ m :: post) = some m := by
  induction pre with
  | nil => simp [findSegment, hm]
  | cons f fs ih =>
    have hf : atoi f ≠ some id := hpre f (by simp)
    have hrest := ih fun g hg => hpre g (by simp [hg])
    cases haf : atoi f with
    | none => simpa [findSegment, haf] using hrest
    | some n =>
      have hn : ¬(n = id) := fun he => hf (by rw [haf, he])
      simpa [findSegment, haf, hn] using hrest

/-! ## Claims -/

/-- Claim C1: for every record whose Series list and RefEntries list are
both empty, `Log` on the durable variant returns success and performs zero
append calls on the engine (and the pool is untouched), for every engine
behaviour. -/
theorem log_empty_record_noop (env : Env) (pool : List (GoSlice WalByte)) (r : WALRecord)
    (hs : r.Series.data = []) (he : r.RefEntries.data = []) :
    walWrapper.Log env pool (some r) = { res := Except.ok (), evs := [], pool := pool } := by
  simp [walWrapper.Log, hs, he]

/-- Witness for C1 at a concrete empty record. -/
theorem log_empty_record_noop_witness :
    walWrapper.Log envOK [] (some emptyRecord) =
      { res := Except.ok (), evs := [], pool := [] } :=
  log_empty_record_noop envOK [] emptyRecord rfl rfl

/-- Claim C2 counterexample: with both lists non-empty but the engine
rejecting the first append, `Log` performs exactly one append call (the
series payload) and returns the error — not the two append calls the claim
requires unconditionally. -/
theorem log_append_order_counterexample :
    bothRecord.Series.data ≠ [] ∧ bothRecord.RefEntries.data ≠ [] ∧
    (walWrapper.Log envFailFirst [] (some bothRecord)).evs =
      [Ev.append (seriesPayload bothRecord)] ∧
    (walWrapper.Log envFailFirst [] (some bothRecord)).evs.length ≠ 2 := by decide

/-- Claim C2 (amended): for every non-empty record, the append sequence
begins with the series payload when Series is non-empty and is followed by
the entries payload when RefEntries is non-empty provided the series append
succeeded; if exactly one list is non-empty, exactly one append call occurs
(whatever the engine answers); if both are non-empty, two append calls occur
series-first when the series append succeeds, and only the series append
call occurs when the engine rejects it. -/
theorem log_append_order (env : Env) (pool : List (GoSlice WalByte)) (r : WALRecord) :
    (r.Series.data ≠ [] → r.RefEntries.data = [] →
      (walWrapper.Log env pool (some r)).evs = [Ev.append (seriesPayload r)]) ∧
    (r.Series.data = [] → r.RefEntries.data ≠ [] →
      (walWrapper.Log env pool (some r)).evs = [Ev.append (entriesPayload r)]) ∧
    (r.Series.data ≠ [] → r.RefEntries.data ≠ [] → env.appendErr 0 = none →
      (walWrapper.Log env pool (some r)).evs =
        [Ev.append (seriesPayload r), Ev.append (entriesPayload r)]) ∧
    (r.Series.data ≠ [] → r.RefEntries.data ≠ [] → ∀ e, env.appendErr 0 = some e →
      (walWrapper.Log env pool (some r)).evs = [Ev.append (seriesPayload r)]) := by
  refine ⟨?_, ?_, ?_, ?_⟩
  · intro hs he
    have hcond : ¬(r.Series.data.length = 0 ∧ r.RefEntries.data.length = 0) := by
      simp [List.length_eq_zero, hs]
    have hsl : r.Series.data.length > 0 := List.length_pos.mpr hs
    simp only [walWrapper.Log]
    rw [if_neg hcond, if_pos hsl]
    cases h0 : env.appendErr 0 <;>
      simp [h0, he, encodeSeries_data_empty, trunc_data]
  · intro hs he
    have hcond : ¬(r.Series.data.length = 0 ∧ r.RefEntries.data.length = 0) := by
      simp [List.length_eq_zero, he]
    have hsl : ¬(r.Series.data.length > 0) := by simp [hs]
    simp only [walWrapper.Log]
    rw [if_neg hcond, if_neg hsl]
    cases h0 : env.appendErr 0 <;>
      simp [h0, encodeEntries_data_empty, trunc_data]
  · intro hs he h0
    have hcond : ¬(r.Series.data.length = 0 ∧ r.RefEntries.data.length = 0) := by
      simp [List.length_eq_zero, hs]
    have hsl : r.Series.data.length > 0 := List.length_pos.mpr hs
    have hel : r.RefEntries.data.length > 0 := List.length_pos.mpr he
    simp only [walWrapper.Log]
    rw [if_neg hcond, if_pos hsl]
    cases h1 : env.appendErr 1 <;>
      simp [h0, h1, hel, encodeSeries_data_empty, encodeEntries_data_empty, trunc_data]
  · intro hs he e h0
    have hcond : ¬(r.Series.data.length = 0 ∧ r.RefEntries.data.length = 0) := by
      simp [List.length_eq_zero, hs]
    have hsl : r.Series.data.length > 0 := List.length_pos.mpr hs
    simp only [walWrapper.Log]
    rw [if_neg hcond, if_pos hsl]
    simp [h0, encodeSeries_data_empty, trunc_data]

/-- Witness for C2 (amended) at a concrete record with one series and one
entries group on a succeeding engine: two appends, series first. -/
theorem log_append_order_witness :
    (walWrapper.Log envOK [] (some bothRecord)).evs =
      [Ev.append (seriesPayload bothRecord), Ev.append (entriesPayload bothRecord)] :=
  (log_append_order envOK [] bothRecord).2.2.1 (by decide) (by decide) rfl

/-- Claim C3 counterexample: the code parses directory names with Go
`strconv.Atoi`, which accepts a leading sign, not as base-10 non-negative
integers as the claim states.  In a directory containing only the file
named "-3", no name parses as a non-negative integer (so the claim demands
NotFound with the directory unchanged), yet `DeleteSegment(-3)` matches it,
removes it and succeeds. -/
theorem deleteSegment_nonneg_parse_counterexample :
    parseNonNeg ("-3") = none ∧
    atoi ("-3") = some (-3) ∧
    DeleteSegment (fun _ => none) (some ["-3"]) (-3) = (Except.ok (), []) := by decide

/-- Claim C3 (amended): `DeleteSegment(id)` parses each directory entry name
as a base-10 integer with optional sign (Go `strconv.Atoi`), skips entries
that fail to parse without error, stops at the first entry whose parsed name
equals `id`, and if no entry parses to `id` it returns the NotFound error
"segment not found" and leaves the directory unchanged. -/
theorem deleteSegment_not_found (rm : String → Option String) (files : List String) (id : Int)
    (h : ∀ f ∈ files, atoi f ≠ some id) :
    DeleteSegment rm (some files) id = (Except.error ("segment not found"), files) := by
  simp [DeleteSegment, findSegment_eq_none id files h]

/-- Witness for C3 (amended): directory with files "0", "3", "7" and id 5. -/
theorem deleteSegment_not_found_witness :
    DeleteSegment (fun _ => none) (some ["0", "3", "7"]) 5 =
      (Except.error ("segment not found"), ["0", "3", "7"]) :=
  deleteSegment_not_found (fun _ => none) ["0", "3", "7"] 5 (by decide)

/-- Claim C4: when the directory holds exactly one entry whose name parses
to `id` (`m`, at an arbitrary position), `DeleteSegment(id)` removes exactly
that file and leaves every other file untouched; if removing it fails, the
returned error wraps the cause under the message
"failed deleting segment: " and the directory is untouched. -/
theorem deleteSegment_match (rm : String → Option String) (pre post : List String)
    (m : String) (id : Int)
    (hm : atoi m = some id)
    (hpre : ∀ f ∈ pre, atoi f ≠ some id)
    (_hpost : ∀ f ∈ post, atoi f ≠ some id) :
    (rm m = none →
      DeleteSegment rm (some (pre ++ m :: post)) id = (Except.ok (), pre ++ post)) ∧
    (∀ c, rm m = some c →
      DeleteSegment rm (some (pre ++ m :: post)) id =
        (Except.error ("failed deleting segment: " ++ c), pre ++ m :: post)) := by
  have hfind := findSegment_first_match id pre post m hm hpre
  have hnotin : m ∉ pre := fun hin => hpre m hin hm
  constructor
  · intro hrm
    simp [DeleteSegment, hfind, hrm, List.erase_append_right _ hnotin, List.erase_cons_head]
  · intro c hrm
    simp [DeleteSegment, hfind, hrm]

/-- Witness for C4: deleting segment 3 from "0", "3", "7" removes only "3";
with a failing remove the wrapped error is returned and nothing changes. -/
theorem deleteSegment_match_witness :
    DeleteSegment (fun _ => none) (some ["0", "3", "7"]) 3 = (Except.ok (), ["0", "7"]) ∧
    DeleteSegment (fun _ => some ("disk full")) (some ["0", "3", "7"]) 3 =
      (Except.error ("failed deleting segment: disk full"), ["0", "3", "7"]) := by
  constructor
  · exact (deleteSegment_match (fun _ => none) ["0"] ["7"] "3" 3 (by decide) (by decide)
      (by decide)).1 rfl
  · exact (deleteSegment_match (fun _ => some ("disk full")) ["0"] ["7"] "3" 3 (by decide)
      (by decide) (by decide)).2 "disk full" rfl

/-- Claim C5: `Delete` on the durable variant always attempts removal of the
WAL directory, even when closing the engine fails; its return value is
exactly the outcome of the removal attempt (hence independent of the close
outcome), and a close failure is only logged as a warning. -/
theorem delete_always_removes (env : Env) (dir : String) :
    Ev.removeAll dir ∈ (walWrapper.Delete env dir).2 ∧
    (walWrapper.Delete env dir).1 = removeAllOutcome env.removeAllErr ∧
    (walWrapper.Delete env dir).1 = (walWrapper.Delete { env with closeErr := none } dir).1 ∧
    (env.closeErr.isSome → Ev.warn ("failed to close WAL") ∈ (walWrapper.Delete env dir).2) := by
  obtain ⟨ae, ce, re⟩ := env
  refine ⟨?_, ?_, ?_, ?_⟩ <;> cases ce <;> cases re <;>
    simp [walWrapper.Delete, removeAllOutcome]

/-- Witness for C5: the engine close fails and directory removal fails; the
removal is still attempted, its error is returned, the close failure is only
a warning. -/
theorem delete_always_removes_witness :
    Ev.removeAll ("/wal/a/t") ∈
      (walWrapper.Delete ⟨fun _ => none, some ("boom"), some ("denied")⟩ ("/wal/a/t")).2 ∧
    (walWrapper.Delete ⟨fun _ => none, some ("boom"), some ("denied")⟩ ("/wal/a/t")).1 =
      Except.error ("denied") ∧
    Ev.warn ("failed to close WAL") ∈
      (walWrapper.Delete ⟨fun _ => none, some ("boom"), some ("denied")⟩ ("/wal/a/t")).2 := by
  have h := delete_always_removes ⟨fun _ => none, some ("boom"), some ("denied")⟩ ("/wal/a/t")
  exact ⟨h.1, h.2.1, h.2.2.2 rfl⟩

/-- Claim C6: on the disabled variant every operation returns success with
no engine or filesystem events, `Dir` returns the empty string, and
`NextSegment` returns 0 with success. -/
theorem noopWAL_spec :
    (∀ r : Option WALRecord, noopWAL.Log r = (Except.ok (), [])) ∧
    noopWAL.Delete = (Except.ok (), []) ∧
    noopWAL.Sync = (Except.ok (), []) ∧
    noopWAL.Dir = "" ∧
    (∀ id : Int, noopWAL.DeleteSegment id = (Except.ok (), [])) ∧
    noopWAL.NextSegment = (Except.ok 0, []) :=
  ⟨fun _ => rfl, rfl, rfl, rfl, fun _ => rfl, rfl⟩

/-- Claim C7: construction with Enabled=false yields the disabled variant;
with Enabled=true it yields a durable variant whose storage directory is the
path join of the configured root, the client name and the tenant id, and an
engine construction failure is returned unchanged. -/
theorem newWAL_spec (f : String → Option String) (cfg : WALConfig)
    (clientName tenantID : String) :
    (cfg.Enabled = false → newWAL f cfg clientName tenantID = Except.ok WALInstance.noop) ∧
    (cfg.Enabled = true → f (pathJoin cfg.Dir clientName tenantID) = none →
      newWAL f cfg clientName tenantID =
        Except.ok (WALInstance.wrapper (pathJoin cfg.Dir clientName tenantID))) ∧
    (cfg.Enabled = true → ∀ e, f (pathJoin cfg.Dir clientName tenantID) = some e →
      newWAL f cfg clientName tenantID = Except.error e) := by
  refine ⟨?_, ?_, ?_⟩
  · intro hE; simp [newWAL, hE]
  · intro hE hf; simp [newWAL, hE, hf]
  · intro hE e hf; simp [newWAL, hE, hf]

/-- Witness for C7 at root "/tmp/wal", client "agent", tenant "t1": the
enabled WAL lives in "/tmp/wal/agent/t1", the disabled config yields the
no-op variant, and an engine failure is passed through. -/
theorem newWAL_spec_witness :
    newWAL (fun _ => none) ⟨true, "/tmp/wal"⟩ ("agent") ("t1") =
      Except.ok (WALInstance.wrapper ("/tmp/wal/agent/t1")) ∧
    newWAL (fun _ => none) ⟨false, "/tmp/wal"⟩ ("agent") ("t1") =
      Except.ok WALInstance.noop ∧
    newWAL (fun _ => some ("engine construction failed")) ⟨true, "/tmp/wal"⟩ ("agent") ("t1") =
      Except.error ("engine construction failed") := by
  refine ⟨?_, ?_, ?_⟩
  · have h := (newWAL_spec (fun _ => none) ⟨true, "/tmp/wal"⟩ ("agent") ("t1")).2.1 rfl rfl
    have hp : pathJoin ("/tmp/wal") ("agent") ("t1") = "/tmp/wal/agent/t1" := by decide
    rw [hp] at h
    exact h
  · exact (newWAL_spec (fun _ => none) ⟨false, "/tmp/wal"⟩ ("agent") ("t1")).1 rfl
  · exact (newWAL_spec (fun _ => some ("engine construction failed")) ⟨true, "/tmp/wal"⟩
      ("agent") ("t1")).2.2 rfl ("engine construction failed") rfl

/-- Claim C8 counterexample: `PutRecord` hands the record pool the instance
unchanged — the pooled record still holds one series descriptor and a
non-empty user id, so Put does not truncate a Record container before
making it available (the reset happens inside `GetRecord` instead). -/
theorem putRecord_no_truncate_counterexample :
    (PutRecord dirtyRecord []).head? = some dirtyRecord ∧
    dirtyRecord.Series.data.length = 1 ∧ dirtyRecord.UserID = "tenant1" := by decide

/-- Claim C8 (amended): for each pool a single-threaded Get–Put–Get yields
an instance with zero-length content and the capacity of the stored
instance (no reallocation); the Entry-slice and byte pools truncate at
`Put`; the Record pool stores unchanged at `Put` and `GetRecord` returns
the instance with all fields reset, capacities retained. -/
theorem pool_roundtrip (pb : List (GoSlice WalByte)) (pe : List (GoSlice Entry))
    (pr : List WALRecord) :
    (GetBytes (PutBytes (GetBytes pb).1 (GetBytes pb).2)).1.data = [] ∧
    (GetBytes (PutBytes (GetBytes pb).1 (GetBytes pb).2)).1.cap = (GetBytes pb).1.cap ∧
    (∀ b : GoSlice WalByte, (PutBytes b pb).head? = some ⟨[], b.cap⟩) ∧
    (GetEntries (PutEntries (GetEntries pe).1 (GetEntries pe).2)).1.data = [] ∧
    (GetEntries (PutEntries (GetEntries pe).1 (GetEntries pe).2)).1.cap =
      (GetEntries pe).1.cap ∧
    (∀ es : GoSlice Entry, (PutEntries es pe).head? = some ⟨[], es.cap⟩) ∧
    (∀ r : WALRecord,
      (GetRecord (PutRecord r pr)).1 =
        { UserID := ""
          Series := ⟨[], r.Series.cap⟩
          RefEntries := ⟨[], r.RefEntries.cap⟩ }) ∧
    (∀ r : WALRecord, (GetRecord (PutRecord r pr)).2 = pr) := by
  refine ⟨?_, ?_, fun b => rfl, ?_, ?_, fun es => rfl, fun r => rfl, fun r => rfl⟩ <;>
    cases pb <;> cases pe <;> rfl

/-- Claim C9: `Log` on the durable variant with a nil record pointer returns
success without invoking the engine or touching the pool; the model is a
total function, so no panic is possible. -/
theorem log_nil_record (env : Env) (pool : List (GoSlice WalByte)) :
    walWrapper.Log env pool none = { res := Except.ok (), evs := [], pool := pool } := rfl

/-- Claim C10: every `Log` call on the durable variant that borrows a byte
buffer from the pool (every call on a non-empty record) stores a truncated
buffer back into the pool before returning, on every control-flow path,
including the paths where the series append or the entries append fails. -/
theorem log_returns_buffer (env : Env) (pool : List (GoSlice WalByte)) (r : WALRecord)
    (hne : ¬(r.Series.data.length = 0 ∧ r.RefEntries.data.length = 0)) :
    ∃ c : Nat, (walWrapper.Log env pool (some r)).pool = ⟨[], c⟩ :: (GetBytes pool).2 := by
  simp only [walWrapper.Log]
  rw [if_neg hne]
  by_cases hs : r.Series.data.length > 0
  · rw [if_pos hs]
    cases h0 : env.appendErr 0
    · by_cases he : r.RefEntries.data.length > 0
      · rw [if_pos he]
        cases h1 : env.appendErr 1 <;> exact ⟨_, rfl⟩
      · rw [if_neg he]
        exact ⟨_, rfl⟩
    · exact ⟨_, rfl⟩
  · rw [if_neg hs]
    cases h0 : env.appendErr 0 <;> exact ⟨_, rfl⟩

/-- Witness for C10: a failing first append on a one-element pool still
leaves one (truncated) buffer in the pool when `Log` returns. -/
theorem log_returns_buffer_witness :
    ∃ c : Nat,
      (walWrapper.Log envFailFirst [⟨[WalByte.recType currentEntriesRec], 2⟩]
        (some bothRecord)).pool = [⟨[], c⟩] :=
  log_returns_buffer envFailFirst [⟨[WalByte.recType currentEntriesRec], 2⟩] bothRecord
    (by decide)

end PromtailWal
